import Mathlib

/-!
Verification of the J-Quants proxy (`api/index.js` and its revisions).

JavaScript strings are embedded as `List Char` (sequences of code units);
JS numbers appearing in the verified arithmetic are embedded as exact
rationals (`ℚ`) or integers (`Int`), since all verified operations here
are comparisons, additions and a guarded division; epoch-millisecond
timestamps are embedded as `Int`.  Stateful code is embedded as explicit
state passing; the single-threaded JS event loop is embedded by treating
each code segment between `await` points as one atomic step.
-/

namespace JQProxy

/-! ### JS string primitives: `trim`, digits, `padStart` -/

/-- Whitespace test used by the embedding of `String.prototype.trim`
(the characters relevant to this code base). -/
def isWS (c : Char) : Bool := decide (c = ' ' ∨ c = '\t' ∨ c = '\n' ∨ c = '\r')

/-- Drop trailing whitespace-like characters (helper for `jsTrim`). -/
def dropTrail (l : List Char) : List Char := (l.reverse.dropWhile isWS).reverse

/-- Embedding of `s.trim()`: strip leading and trailing whitespace. -/
def jsTrim (l : List Char) : List Char := dropTrail (l.dropWhile isWS)

lemma not_ws_of_digit {c : Char} (h : c.isDigit = true) : isWS c = false := by
  cases hws : isWS c with
  | false => rfl
  | true =>
    exfalso
    have h4 : c = ' ' ∨ c = '\t' ∨ c = '\n' ∨ c = '\r' := of_decide_eq_true hws
    rcases h4 with h1 | h1 | h1 | h1 <;> subst h1 <;> exact absurd h (by decide)

lemma head_dropWhile_not {p : Char → Bool} {l : List Char} {c : Char}
    (h : (l.dropWhile p).head? = some c) : p c = false := by
  induction l with
  | nil => simp at h
  | cons a t ih =>
    rw [List.dropWhile_cons] at h
    by_cases hp : p a = true
    · exact ih (by simpa [hp] using h)
    · rw [if_neg hp, List.head?_cons] at h
      have hac : a = c := by injection h
      rw [← hac]
      cases hpa : p a with
      | false => rfl
      | true => exact absurd hpa hp

/-- A list whose first and last characters are not whitespace is unchanged
by `jsTrim`. -/
lemma jsTrim_eq_self {l : List Char}
    (h1 : ∀ c, l.head? = some c → isWS c = false)
    (h2 : ∀ c, l.getLast? = some c → isWS c = false) : jsTrim l = l := by
  cases l with
  | nil => rfl
  | cons a t =>
    have ha := h1 a rfl
    unfold jsTrim dropTrail
    rw [List.dropWhile_cons, if_neg (by simp [ha])]
    cases hr : (a :: t).reverse with
    | nil => simpa using congrArg List.length hr
    | cons b r =>
      have hb : isWS b = false := by
        refine h2 b ?_
        rw [← List.head?_reverse, hr]
        rfl
      rw [List.dropWhile_cons, if_neg (by simp [hb]), ← hr, List.reverse_reverse]

lemma jsTrim_of_no_ws {l : List Char} (h : ∀ c ∈ l, isWS c = false) : jsTrim l = l := by
  refine jsTrim_eq_self (fun c hc => ?_) (fun c hc => ?_)
  · exact h c (List.mem_of_mem_head? (by rw [hc]; rfl))
  · exact h c (List.mem_of_getLast?_eq_some hc)

lemma head?_dropTrail {m : List Char} {c : Char} (h : (dropTrail m).head? = some c) :
    m.head? = some c := by
  obtain ⟨pre, hpre⟩ := List.dropWhile_suffix (l := m.reverse) isWS
  have hm : m = dropTrail m ++ pre.reverse := by
    have h2 := congrArg List.reverse hpre
    simpa [dropTrail, List.reverse_append] using h2.symm
  rw [hm]
  cases hd : dropTrail m with
  | nil => rw [hd] at h; simp at h
  | cons x xs => rw [hd] at h; simpa using h

lemma head_jsTrim_not_ws {l : List Char} {c : Char}
    (h : (jsTrim l).head? = some c) : isWS c = false := by
  unfold jsTrim at h
  exact head_dropWhile_not (head?_dropTrail h)

lemma getLast_jsTrim_not_ws {l : List Char} {c : Char}
    (h : (jsTrim l).getLast? = some c) : isWS c = false := by
  unfold jsTrim dropTrail at h
  rw [List.getLast?_reverse] at h
  exact head_dropWhile_not h

lemma jsTrim_idem (l : List Char) : jsTrim (jsTrim l) = jsTrim l :=
  jsTrim_eq_self (fun _ h => head_jsTrim_not_ws h) (fun _ h => getLast_jsTrim_not_ws h)

/-- Embedding of `s.padStart(4, "0")`. -/
def padStart4 (l : List Char) : List Char := List.replicate (4 - l.length) '0' ++ l

lemma padStart4_of_length_ge {l : List Char} (h : 4 ≤ l.length) : padStart4 l = l := by
  unfold padStart4
  rw [Nat.sub_eq_zero_of_le h]
  simp

/-! ### Instrument-code canonicalization (`codeStr`, api/index.js:29-39)

```js
function codeStr(x) {
  const s = String(x || "").trim();
  const m = s.match(/^(\d{4})\d$/);
  if (m) return m[1];
  const n = s.match(/^(\d{4})/);
  if (n) return n[1];
  return s.padStart(4, "0");
}
```
The first regex matches exactly five digits (four digits captured plus one
trailing digit, anchored at both ends); the second matches any string whose
first four characters are digits. -/

def codeStr (x : List Char) : List Char :=
  if (jsTrim x).length = 5 ∧ (jsTrim x).all Char.isDigit then (jsTrim x).take 4
  else if 4 ≤ (jsTrim x).length ∧ ((jsTrim x).take 4).all Char.isDigit then (jsTrim x).take 4
  else padStart4 (jsTrim x)

lemma jsTrim_of_all_digit {l : List Char} (h : l.all Char.isDigit = true) :
    jsTrim l = l := by
  refine jsTrim_of_no_ws (fun c hc => ?_)
  exact not_ws_of_digit (List.all_eq_true.mp h c hc)

/-- `codeStr` fixes any four-character all-digit string. -/
lemma codeStr_of_digit4 {t : List Char} (hlen : t.length = 4)
    (hdig : t.all Char.isDigit = true) : codeStr t = t := by
  unfold codeStr
  rw [jsTrim_of_all_digit hdig]
  rw [if_neg (by rintro ⟨h5, -⟩; omega)]
  rw [if_pos ⟨by omega, by rw [List.take_of_length_le hlen.le]; exact hdig⟩]
  exact List.take_of_length_le hlen.le

theorem codeStr_cases (x : List Char) :
    ((codeStr x).length = 4 ∧ (codeStr x).all Char.isDigit = true)
    ∨ (codeStr x = padStart4 (jsTrim x)
        ∧ ¬ ((jsTrim x).length = 5 ∧ (jsTrim x).all Char.isDigit)
        ∧ ¬ (4 ≤ (jsTrim x).length ∧ ((jsTrim x).take 4).all Char.isDigit)) := by
  unfold codeStr
  by_cases h1 : (jsTrim x).length = 5 ∧ (jsTrim x).all Char.isDigit
  · left
    rw [if_pos h1]
    constructor
    · rw [List.length_take]; omega
    · exact List.all_eq_true.mpr (fun c hc => List.all_eq_true.mp h1.2 c (List.mem_of_mem_take hc))
  · rw [if_neg h1]
    by_cases h2 : 4 ≤ (jsTrim x).length ∧ ((jsTrim x).take 4).all Char.isDigit
    · left
      rw [if_pos h2]
      exact ⟨by rw [List.length_take]; omega, h2.2⟩
    · right
      rw [if_neg h2]
      exact ⟨rfl, h1, h2⟩

/-- Claim C5: instrument-code canonicalization is idempotent: for every
input string `x`, `codeStr (codeStr x) = codeStr x` — covering already
4-digit codes, 5-digit codes with a trailing classification digit (which
is stripped), and malformed strings (which are zero-padded to 4
characters). -/
theorem codeStr_idempotent (x : List Char) : codeStr (codeStr x) = codeStr x := by
  rcases codeStr_cases x with ⟨hlen, hdig⟩ | ⟨hpad, h1, h2⟩
  · exact codeStr_of_digit4 hlen hdig
  · rw [hpad]
    by_cases hge : 4 ≤ (jsTrim x).length
    · -- no padding actually happens and both regex branches still fail
      have hps : padStart4 (jsTrim x) = jsTrim x := padStart4_of_length_ge hge
      rw [hps]
      unfold codeStr
      rw [jsTrim_idem, if_neg h1, if_neg h2]
      exact hps
    · -- padding to exactly 4 characters happened
      push_neg at hge
      have hylen : (padStart4 (jsTrim x)).length = 4 := by
        unfold padStart4
        rw [List.length_append, List.length_replicate]
        omega
      have hytrim : jsTrim (padStart4 (jsTrim x)) = padStart4 (jsTrim x) := by
        unfold padStart4
        have hk : 1 ≤ 4 - (jsTrim x).length := by omega
        refine jsTrim_eq_self (fun c hc => ?_) (fun c hc => ?_)
        · -- head is the padding character '0'
          cases hrep : 4 - (jsTrim x).length with
          | zero => omega
          | succ k =>
            rw [hrep, List.replicate_succ] at hc
            simp only [List.cons_append, List.head?_cons, Option.some.injEq] at hc
            subst hc
            decide
        · -- last char is '0' (empty trimmed input) or the last char of `jsTrim x`
          rcases List.eq_nil_or_concat (jsTrim x) with hnil | ⟨s0, c0, hcat⟩
          · rw [hnil, List.append_nil] at hc
            have hc0 : c = '0' := List.eq_of_mem_replicate (List.mem_of_getLast?_eq_some hc)
            subst hc0
            decide
          · rw [hcat, List.concat_eq_append, ← List.append_assoc, List.getLast?_concat] at hc
            have hc0 : c0 = c := by simpa using hc
            subst hc0
            refine getLast_jsTrim_not_ws (l := x) ?_
            rw [hcat, List.concat_eq_append, List.getLast?_concat]
      unfold codeStr
      rw [hytrim]
      rw [if_neg (by rintro ⟨h5, -⟩; omega)]
      by_cases hb : 4 ≤ (padStart4 (jsTrim x)).length
          ∧ ((padStart4 (jsTrim x)).take 4).all Char.isDigit
      · rw [if_pos hb]
        exact List.take_of_length_le (by omega)
      · rw [if_neg hb]
        exact padStart4_of_length_ge (by omega)

/-! ### Response cache (`getCached` / `setCached`)

From api/index.js:727-728 (identically unnamed/part_000:132-139):
```js
function getCached(key) { const hit = cache.resp.get(key); return hit && hit.expAt > Date.now() ? hit.json : null; }
function setCached(key, jsonObj, ttlMs) { cache.resp.set(key, { expAt: Date.now() + ttlMs, json: jsonObj }); }
```
The `Map` is embedded as an association list where `set` prepends and
lookup returns the most recent binding (last-writer-wins). -/

structure CacheEntry where
  expAt : Int
  json : String
deriving DecidableEq

/-- Embedding of `setCached(key, jsonObj, ttlMs)` executed at time `now`. -/
def setCached (resp : List (String × CacheEntry)) (key : String) (jsonObj : String)
    (ttlMs now : Int) : List (String × CacheEntry) :=
  (key, ⟨now + ttlMs, jsonObj⟩) :: resp

/-- Embedding of `getCached(key)` executed at time `now`. -/
def getCached (resp : List (String × CacheEntry)) (key : String) (now : Int) :
    Option String :=
  match resp.lookup key with
  | some hit => if hit.expAt > now then some hit.json else none
  | none => none

/-- Claim C4: a cache entry stored at `storedAt` with time-to-live `ttl` is
a hit at any lookup time `t` with `t - storedAt < ttl` and a miss whenever
`t - storedAt ≥ ttl` (so in particular whenever `t - storedAt > ttl`);
concretely, a lookup at `storedAt + ttl - 1` is a hit and a lookup at
`storedAt + ttl + 1` is a miss.  Expiry is checked lazily at lookup. -/
theorem getCached_ttl (resp : List (String × CacheEntry)) (key jsonObj : String)
    (ttl storedAt t : Int) :
    (getCached (setCached resp key jsonObj ttl storedAt) key t
        = if t - storedAt < ttl then some jsonObj else none)
    ∧ getCached (setCached resp key jsonObj ttl storedAt) key (storedAt + ttl - 1)
        = some jsonObj
    ∧ getCached (setCached resp key jsonObj ttl storedAt) key (storedAt + ttl + 1)
        = none := by
  have hmain : ∀ u : Int, getCached (setCached resp key jsonObj ttl storedAt) key u
      = if u - storedAt < ttl then some jsonObj else none := by
    intro u
    unfold getCached setCached
    have hl : ((key, (⟨storedAt + ttl, jsonObj⟩ : CacheEntry)) :: resp).lookup key
        = some ⟨storedAt + ttl, jsonObj⟩ := by simp [List.lookup]
    rw [hl]
    by_cases h : u - storedAt < ttl
    · rw [if_pos h]
      simp only [gt_iff_lt]
      rw [if_pos (by omega)]
    · rw [if_neg h]
      simp only [gt_iff_lt]
      rw [if_neg (by omega)]
  exact ⟨hmain t, by rw [hmain]; rw [if_pos (by omega)],
    by rw [hmain]; rw [if_neg (by omega)]⟩

/-! ### Numeric coercion and momentum (`toNum` / `calcReturn`)

From api/index.js:23-27 and 288-292:
```js
function toNum(x) {
  if (x === "-" || x === "*" || x === "" || x == null) return null;
  const n = Number(x);
  return Number.isFinite(n) ? n : null;
}
function calcReturn(nowClose, pastClose) {
  const a = toNum(nowClose), b = toNum(pastClose);
  if (!Number.isFinite(a) || !Number.isFinite(b) || b === 0) return null;
  return a / b - 1;
}
```
A loosely-typed upstream value is embedded by the branch it takes in
`toNum`: `vNull` (null/undefined), `vSentinel` (the "-", "*", "" sentinel
strings), `vNaN` (any value whose `Number(x)` is not finite: non-numeric
strings, NaN, Infinity), or `vNum q` (a finite number, embedded exactly
as a rational). -/

inductive JSVal where
  | vNull
  | vSentinel
  | vNaN
  | vNum (q : ℚ)
deriving DecidableEq

/-- Embedding of `toNum`. -/
def toNum : JSVal → Option ℚ
  | .vNum q => some q
  | _ => none

/-- Embedding of `calcReturn` (identical in unnamed/part_001:274-279 and
unnamed/part_003:328-332). -/
def calcReturn (nowClose pastClose : JSVal) : Option ℚ :=
  match toNum nowClose, toNum pastClose with
  | some a, some b => if b = 0 then none else some (a / b - 1)
  | _, _ => none

/-- Embedding of the horizon-index clamping in `buildMomentumSnapshots`
(api/index.js:274-276): `Math.max(0, dates.length - horizon)` is exactly
truncated natural subtraction. -/
def momIdx (len horizon : Nat) : Nat := len - horizon

/-! The second revision computes momentum differently, in `calcMomentum`
(api/index.js:933-944), on top of `num` (api/index.js:673):
```js
function num(v) { const n = Number(v); return Number.isFinite(n) ? n : 0; }
...
const close = (r)=> num(pick(r, ["Close","close","endPrice",...]));
const last = close(rows[rows.length-1]);
const findAgo = (days)=> close(rows[Math.max(rows.length - 1 - Math.round(days),0)]);
const ret = (cur, prev)=> (prev>0 ? (cur/prev - 1) : 0);
```
`num` coerces a missing, sentinel, or non-numeric close to the number 0
(`Number(null)` is 0 and `Number` of a non-numeric string is `NaN`, both
ending in the 0 fallback), and `ret` yields 0 — not null — whenever the
historical close is not strictly positive. -/

/-- Embedding of `num`: coerce a missing or non-finite value to 0. -/
def numOr0 : JSVal → ℚ
  | .vNum q => q
  | _ => 0

/-- Embedding of `ret` in `calcMomentum` (api/index.js:942). -/
def calcMomentumRet (cur prev : ℚ) : ℚ :=
  if 0 < prev then cur / prev - 1 else 0

/-- Counterexample to claim C6 as stated: in the cited `calcMomentum`
(api/index.js:933-944) a missing historical close is coerced to 0 by `num`
and the momentum comes out as the number `0` — not `null` — which is
exactly the genuine 0% return of an unchanged price (5 → 5); a missing
latest close likewise yields `-1`, not `null`. -/
theorem calcMomentum_returns_zero_not_null :
    calcMomentumRet (numOr0 (.vNum 3)) (numOr0 .vNull) = 0
    ∧ calcMomentumRet 5 5 = 0
    ∧ calcMomentumRet (numOr0 (.vNum 3)) (numOr0 .vNull) = calcMomentumRet 5 5
    ∧ calcMomentumRet (numOr0 .vNull) (numOr0 (.vNum 2)) = -1 := by
  refine ⟨?_, ?_, ?_, ?_⟩ <;> norm_num [calcMomentumRet, numOr0]

/-- Claim C6 (amended): the screening pipeline's momentum computation
(`calcReturn`, api/index.js:288-292) returns `null` — never throws and
never yields a non-finite value — exactly when either close is missing
(null, sentinel, or non-numeric) or the historical close is zero;
otherwise it returns the exact rational `a / b - 1`.  When the available
history is shorter than the horizon, the horizon index clamps to 0 (the
earliest available date) and stays in bounds.  The second revision's
`calcMomentum` (api/index.js:933-944) instead returns the number `0`, not
`null`, whenever the historical close is missing or zero (the missing
close having been coerced to 0 by `num`). -/
theorem calcReturn_null_safety :
    (∀ x y : JSVal, calcReturn x y = none
        ↔ (toNum x = none ∨ toNum y = none ∨ toNum y = some 0))
    ∧ (∀ (x y : JSVal) (a b : ℚ), toNum x = some a → toNum y = some b → b ≠ 0 →
        calcReturn x y = some (a / b - 1))
    ∧ (∀ len horizon : Nat, 1 ≤ len → 1 ≤ horizon → momIdx len horizon < len
        ∧ (len ≤ horizon → momIdx len horizon = 0))
    ∧ (∀ cur prev : JSVal, toNum prev = none ∨ toNum prev = some 0 →
        calcMomentumRet (numOr0 cur) (numOr0 prev) = 0) := by
  refine ⟨?_, ?_, ?_, ?_⟩
  · intro x y
    cases x <;> cases y <;> simp [calcReturn, toNum]
  · intro x y a b hx hy hb
    cases x <;> cases y <;> simp [toNum] at hx hy
    subst hx
    subst hy
    simp [calcReturn, toNum, hb]
  · intro len horizon h hh
    unfold momIdx
    omega
  · intro cur prev hprev
    have hz : numOr0 prev = 0 := by
      cases prev <;> simp [toNum] at hprev <;> simp [numOr0, hprev]
    rw [hz]
    simp [calcMomentumRet]

/-- Witness for C6's amended theorem at concrete inputs: a missing past
close yields `null` from `calcReturn`, a regular pair yields the finite
return `3/2 - 1 = 1/2`, a 5-day history clamps the 63-day horizon index to
0, and `calcMomentum` yields the number 0 for a missing past close. -/
theorem calcReturn_null_safety_concrete :
    calcReturn (.vNum 3) .vNull = none
    ∧ calcReturn (.vNum 3) (.vNum 2) = some (1/2)
    ∧ momIdx 5 63 = 0
    ∧ calcMomentumRet (numOr0 (.vNum 7)) (numOr0 .vSentinel) = 0 := by
  refine ⟨?_, ?_, ?_, ?_⟩
  · exact (calcReturn_null_safety.1 (.vNum 3) .vNull).mpr (Or.inr (Or.inl rfl))
  · have h := calcReturn_null_safety.2.1 (.vNum 3) (.vNum 2) 3 2 rfl rfl (by norm_num)
    rw [h]
    norm_num
  · exact (calcReturn_null_safety.2.2.1 5 63 (by norm_num) (by norm_num)).2 (by norm_num)
  · exact calcReturn_null_safety.2.2.2 (.vNum 7) .vSentinel (Or.inl rfl)

/-! ### Token-manager in-flight de-duplication (`ensureIdToken` / `ensureRefreshToken`)

From api/index.js:87-100 and 102-127:
```js
let inflightGetRT = null;
async function ensureRefreshToken() {
  if (refreshTokenValid()) return REFRESH_TOKEN;
  if (inflightGetRT) return inflightGetRT;
  inflightGetRT = (async () => { ... })();
  try { return await inflightGetRT; } finally { inflightGetRT = null; }
}
let inflightGetID = null;
async function ensureIdToken() {
  if (ID_TOKEN && msUntilExp() > 0) return ID_TOKEN;
  if (inflightGetID) return inflightGetID;
  inflightGetID = (async () => (await refreshIdToken()).idToken)();
  try { return await inflightGetID; } finally { inflightGetID = null; }
}
```
Both functions share one skeleton: a synchronous segment that (a) returns
the cached value when valid, (b) joins the in-flight promise when one
exists, or (c) creates the promise — starting exactly one upstream
acquisition — and joins it.  On the single-threaded JS event loop this
segment runs atomically, so N simultaneous callers are N consecutive
executions of `dedupCall` against the shared state, all completing before
the upstream response resolves the promise. -/

structure DedupState where
  cached : Option String
  inflight : Option Nat
  started : Nat
deriving DecidableEq

inductive CallOutcome where
  | value (t : String)
  | awaits (pid : Nat)
deriving DecidableEq

/-- One synchronous execution of the `ensureIdToken` (equally
`ensureRefreshToken`) entry segment. `started` counts upstream
acquisition operations launched; promise ids are numbered by launch. -/
def dedupCall (s : DedupState) : DedupState × CallOutcome :=
  match s.cached with
  | some t => (s, .value t)
  | none =>
    match s.inflight with
    | some pid => (s, .awaits pid)
    | none =>
      (⟨none, some s.started, s.started + 1⟩, .awaits s.started)

/-- N consecutive caller arrivals (all before the upstream resolution). -/
def runCalls : DedupState → Nat → DedupState × List CallOutcome
  | s, 0 => (s, [])
  | s, n + 1 =>
    let p := dedupCall s
    let q := runCalls p.1 n
    (q.1, p.2 :: q.2)

/-- Resolution: a caller holding `.value t` already has its token; a caller
awaiting promise `pid` receives that promise's resolved value. -/
def resolveOutcome (resolution : Nat → String) : CallOutcome → String
  | .value t => t
  | .awaits pid => resolution pid

/-- Process state with no valid cached token and no refresh in flight. -/
def noTokenState : DedupState := ⟨none, none, 0⟩

lemma runCalls_inflight (n : Nat) :
    runCalls ⟨none, some 0, 1⟩ n
      = (⟨none, some 0, 1⟩, List.replicate n (CallOutcome.awaits 0)) := by
  induction n with
  | zero => rfl
  | succ k ih =>
    show (let p := dedupCall ⟨none, some 0, 1⟩;
      let q := runCalls p.1 k; (q.1, p.2 :: q.2)) = _
    rw [show dedupCall ⟨none, some 0, 1⟩ = (⟨none, some 0, 1⟩, .awaits 0) from rfl]
    simp only [ih, List.replicate_succ]

/-- Claim C1: for every `N ≥ 1`, N simultaneous calls to the session-token
accessor (`ensureIdToken`) made while no valid cached token exists start
exactly one upstream token-exchange operation, and every caller awaits the
same promise (id 0), hence resolves to the same token value; the identical
in-flight structure of `ensureRefreshToken` gives the same guarantee for
long-lived-credential acquisition. -/
theorem dedup_single_upstream_call (n : Nat) (h : 1 ≤ n) :
    (runCalls noTokenState n).1.started = 1
    ∧ (∀ o ∈ (runCalls noTokenState n).2, o = CallOutcome.awaits 0)
    ∧ (∀ resolution : Nat → String, ∀ o ∈ (runCalls noTokenState n).2,
        resolveOutcome resolution o = resolution 0) := by
  obtain ⟨k, rfl⟩ : ∃ k, n = k + 1 := ⟨n - 1, by omega⟩
  have hstep : runCalls noTokenState (k + 1)
      = ((⟨none, some 0, 1⟩ : DedupState),
          CallOutcome.awaits 0 :: List.replicate k (CallOutcome.awaits 0)) := by
    show (let p := dedupCall noTokenState;
      let q := runCalls p.1 k; (q.1, p.2 :: q.2)) = _
    rw [show dedupCall noTokenState = (⟨none, some 0, 1⟩, .awaits 0) from rfl]
    simp only [runCalls_inflight]
  refine ⟨by rw [hstep], ?_, ?_⟩
  · intro o ho
    rw [hstep] at ho
    simp only [List.mem_cons] at ho
    rcases ho with rfl | ho
    · rfl
    · exact List.eq_of_mem_replicate ho
  · intro resolution o ho
    rw [hstep] at ho
    simp only [List.mem_cons] at ho
    rcases ho with rfl | ho
    · rfl
    · rw [List.eq_of_mem_replicate ho]
      rfl

/-- Witness for C1 at `N = 3`: three simultaneous callers cause exactly one
upstream exchange and all await promise 0. -/
theorem dedup_single_upstream_call_concrete :
    (runCalls noTokenState 3).1.started = 1
    ∧ (∀ o ∈ (runCalls noTokenState 3).2, o = CallOutcome.awaits 0) :=
  ⟨(dedup_single_upstream_call 3 (by norm_num)).1,
    (dedup_single_upstream_call 3 (by norm_num)).2.1⟩

/-! ### Upstream GET retry loop (`jqGET`, unnamed/part_003:135-163)

```js
async function jqGET(pathWithQuery, idTokenOverride) {
  ...
  let attempt = 0, lastErr;
  while (attempt < 3) {
    attempt++;
    try {
      const r = await fetch(url, ...);
      const body = await r.json().catch(() => ({}));
      if (r.ok) return body;
      if ([429, 500, 502, 503, 504].includes(r.status)) {
        const backoff = 300 * Math.pow(2, attempt - 1); // 300, 600, 1200ms
        await sleep(backoff);
        continue;
      }
      // その他は即エラー
      const msg = ...;
      throw new Error(`JQ GET failed: ...`);
    } catch (e) {
      lastErr = e;
      if (attempt >= 3) break;
      await sleep(300 * Math.pow(2, attempt - 1));
    }
  }
  throw lastErr || new Error("JQ GET failed");
}
```
The upstream is embedded as a function from the attempt number (1-based)
to the HTTP response.  The loop is embedded with fuel `3 - attempt`
(`fuel = 0` iff the `while` guard `attempt < 3` fails).  Recorded are the
outcome, the number of fetch attempts made, and the list of backoff
delays slept, in order. -/

structure FetchResp where
  status : Nat
  body : String
deriving DecidableEq

/-- `res.ok`: status in the inclusive range 200-299. -/
def respOk (r : FetchResp) : Bool := 200 ≤ r.status && r.status < 300

/-- `[429, 500, 502, 503, 504].includes(r.status)`. -/
def retryableStatus (st : Nat) : Bool :=
  st = 429 || st = 500 || st = 502 || st = 503 || st = 504

inductive JqOutcome where
  | ok (body : String)
  | err (msg : String)
deriving DecidableEq

structure JqRun where
  outcome : JqOutcome
  attempts : Nat
  delays : List Nat
deriving DecidableEq

/-- `300 * Math.pow(2, attempt - 1)`. -/
def backoffMs (attempt : Nat) : Nat := 300 * 2 ^ (attempt - 1)

def jqGETloop (upstream : Nat → FetchResp) :
    Nat → Nat → Option String → List Nat → JqRun
  | 0, attempt, lastErr, delays =>
    ⟨.err (lastErr.getD "JQ GET failed"), attempt, delays⟩
  | fuel + 1, attempt, lastErr, delays =>
    let a := attempt + 1
    let r := upstream a
    if respOk r then ⟨.ok r.body, a, delays⟩
    else if retryableStatus r.status then
      jqGETloop upstream fuel a lastErr (delays ++ [backoffMs a])
    else
      let msg := "JQ GET failed: " ++ toString r.status
      if 3 ≤ a then ⟨.err msg, a, delays⟩
      else jqGETloop upstream fuel a (some msg) (delays ++ [backoffMs a])

/-- Embedding of one `jqGET` call (token acquisition elided): the loop
starts with `attempt = 0` and guard `attempt < 3`, i.e. fuel 3. -/
def jqGETrun (upstream : Nat → FetchResp) : JqRun :=
  jqGETloop upstream 3 0 none []

/-- Claim C2 (behavior at the decisive inputs).  Against an upstream that
always answers 429, `jqGET` makes exactly 3 attempts with exponentially
growing, non-decreasing backoff delays 300, 600, 1200 ms and then fails —
as claimed.  But against an upstream that always answers 404 (a
non-retryable status), it also makes 3 attempts (sleeping 300 then 600 ms
between them) instead of failing immediately without retry: the `throw`
marked "その他は即エラー" (immediate error) is captured by the loop's own
`catch`, which sleeps and retries. -/
theorem jqGET_retry_behavior :
    jqGETrun (fun _ => ⟨429, ""⟩)
      = ⟨.err "JQ GET failed", 3, [300, 600, 1200]⟩
    ∧ jqGETrun (fun _ => ⟨404, ""⟩)
      = ⟨.err "JQ GET failed: 404", 3, [300, 600]⟩
    ∧ (jqGETrun (fun _ => ⟨404, ""⟩)).attempts ≠ 1 := by
  refine ⟨?_, ?_, ?_⟩ <;> decide

/-! ### Caller authentication (`requireProxyAuth`, api/index.js:50-62)

```js
function requireProxyAuth(req, res) {
  const header = req.headers["authorization"] || req.headers["Authorization"];
  if (!header || !header.startsWith("Bearer ")) {
    json(res, 401, { error: "Missing Authorization: Bearer" });
    return false;
  }
  const token = header.slice("Bearer ".length).trim();
  if (!process.env.PROXY_BEARER || token !== process.env.PROXY_BEARER) {
    json(res, 401, { error: "Invalid bearer token" });
    return false;
  }
  return true;
}
```
The secret is `Option (List Char)` (`none` = env var unset; `some []` =
set to the empty string — both falsy in JS); the header likewise.  Both
rejection paths answer 401. -/

def bearerTag : List Char := ['B', 'e', 'a', 'r', 'e', 'r', ' ']

def requireProxyAuth (proxyBearer : Option (List Char))
    (authHeader : Option (List Char)) : Bool :=
  match authHeader with
  | none => false
  | some h =>
    if bearerTag.isPrefixOf h then
      match proxyBearer with
      | none => false
      | some p => decide (p ≠ []) && decide (jsTrim (h.drop 7) = p)
    else false

/-- Counterexample to claim C9 as stated: with secret `"s"`, the header
`"Bearer s "` (trailing space) is accepted, although it does not equal
`"Bearer "` followed by exactly the secret — the token is trimmed before
comparison, so the claimed exact-equality iff fails. -/
theorem requireProxyAuth_not_exact_equality :
    requireProxyAuth (some ['s'])
        (some ['B', 'e', 'a', 'r', 'e', 'r', ' ', 's', ' ']) = true
    ∧ ['B', 'e', 'a', 'r', 'e', 'r', ' ', 's', ' '] ≠ bearerTag ++ ['s'] := by
  constructor
  · decide
  · decide

/-- Claim C9 (amended): `requireProxyAuth` accepts iff the `PROXY_BEARER`
secret is configured (set and non-empty) and the `Authorization` header is
`"Bearer "` followed by a remainder that equals the secret after trimming
surrounding whitespace; in particular, when `PROXY_BEARER` is unset (or
empty) every protected request is rejected with 401 — authentication is
fail-closed, never skipped. -/
theorem requireProxyAuth_characterization :
    (∀ pb h : List Char,
        requireProxyAuth (some pb) (some h) = true
          ↔ (pb ≠ [] ∧ ∃ rest, h = bearerTag ++ rest ∧ jsTrim rest = pb))
    ∧ (∀ header : Option (List Char), requireProxyAuth none header = false)
    ∧ (∀ header : Option (List Char), requireProxyAuth (some []) header = false) := by
  refine ⟨?_, ?_, ?_⟩
  · intro pb h
    simp only [requireProxyAuth]
    by_cases hp : bearerTag.isPrefixOf h = true
    · rw [if_pos hp]
      obtain ⟨rest, hrest⟩ : ∃ rest, bearerTag ++ rest = h :=
        List.isPrefixOf_iff_prefix.mp hp
      have hdrop : h.drop 7 = rest := by
        rw [← hrest]
        exact List.drop_left bearerTag rest
      constructor
      · intro hacc
        simp only [Bool.and_eq_true, decide_eq_true_eq] at hacc
        exact ⟨hacc.1, rest, hrest.symm, by rw [← hdrop]; exact hacc.2⟩
      · rintro ⟨hne, rest2, hr2, htrim⟩
        have : rest2 = rest := by
          have hcat : bearerTag ++ rest2 = bearerTag ++ rest := by rw [← hr2, hrest]
          exact List.append_cancel_left hcat
        subst this
        simp only [Bool.and_eq_true, decide_eq_true_eq]
        exact ⟨hne, by rw [hdrop]; exact htrim⟩
    · rw [if_neg hp]
      constructor
      · intro hfalse
        exact absurd hfalse (by simp)
      · rintro ⟨-, rest, rfl, -⟩
        exact absurd (List.isPrefixOf_iff_prefix.mpr ⟨rest, rfl⟩) hp
  · intro header
    cases header with
    | none => rfl
    | some h =>
      simp only [requireProxyAuth]
      by_cases hp : bearerTag.isPrefixOf h = true
      · rw [if_pos hp]
      · rw [if_neg hp]
  · intro header
    cases header with
    | none => rfl
    | some h =>
      simp only [requireProxyAuth]
      by_cases hp : bearerTag.isPrefixOf h = true
      · rw [if_pos hp]
        simp
      · rw [if_neg hp]

/-! ### Dividend yield: zero vs null (claim C7)

Screening side — from the screen/basic valuation step (api/index.js:508-521,
identically unnamed/part_003:829-849):
```js
let per = null, pbr = null, dividend_yield = null;
...
const close = latestClose.get(code);
if (Number.isFinite(close)) {
  ...
  if (s.dps != null && close !== 0) dividend_yield = s.dps / close;
}
...
if (div_yield_gt != null && !(dividend_yield != null && dividend_yield > div_yield_gt)) continue;
```
`close` is `none` when the instrument has no price data (a `Map.get` miss);
`dps` is `some 0` for a disclosed zero dividend and `none` when no dividend
field was found. -/

def divYieldScreen (dps close : Option ℚ) : Option ℚ :=
  match close with
  | some c =>
    match dps with
    | some d => if c ≠ 0 then some (d / c) else none
    | none => none
  | none => none

/-- The `div_yield_gt` filter check: a row passes iff no threshold is set,
or the computed yield is non-null and strictly exceeds the threshold. -/
def divFilterPass (divYieldGt dy : Option ℚ) : Bool :=
  match divYieldGt with
  | none => true
  | some t =>
    match dy with
    | none => false
    | some y => decide (t < y)

/-! Statements-summary side — from `handleFinsStatements`
(api/index.js:833-870):
```js
async function fetchLatestClose(idToken, code) { ...
  const last = rows[rows.length-1] || {};
  const close = num((...Close keys...));  // num() coerces missing to 0
  return close;
}
...
const divYield = (perShare.dps > 0 && close > 0) ? (perShare.dps / close) : 0;
```
A row is embedded by its (possibly missing) close value. -/

def fetchLatestCloseFins (rows : List (Option ℚ)) : ℚ :=
  match rows.getLast? with
  | some (some c) => c
  | _ => 0

def divYieldFins (dps close : ℚ) : ℚ :=
  if 0 < dps ∧ 0 < close then dps / close else 0

/-- Counterexample to claim C7 as stated: in `handleFinsStatements`
(api/index.js:868-870) an instrument with a disclosed dividend of 5 but no
price data gets `dividend_yield = 0` — not `null` — which is exactly the
value a zero-dividend instrument with a valid price gets: the two cases
the claim says are never conflated produce identical output. -/
theorem finsDivYield_conflates_zero_and_missing :
    divYieldFins 5 (fetchLatestCloseFins []) = 0
    ∧ divYieldFins 0 100 = 0
    ∧ divYieldFins 5 (fetchLatestCloseFins []) = divYieldFins 0 100 := by
  refine ⟨?_, ?_, ?_⟩ <;> norm_num [divYieldFins, fetchLatestCloseFins]

/-- Claim C7 (amended): in the screening pipeline (`/api/screen/basic`) a
disclosed dividend of zero with valid non-zero price data yields
`dividendYield = 0` while an instrument with no price data yields `null`,
and the `div_yield_gt` filter never conflates the two — `null` fails the
filter, `0` is compared against the threshold like any value.  The
fins/statements summary endpoint, by contrast, reports `0` in both cases
(see the counterexample). -/
theorem screen_divYield_distinction :
    (∀ c : ℚ, c ≠ 0 → divYieldScreen (some 0) (some c) = some 0)
    ∧ (∀ dps : Option ℚ, divYieldScreen dps none = none)
    ∧ (∀ t : ℚ, divFilterPass (some t) none = false)
    ∧ (∀ t y : ℚ, divFilterPass (some t) (some y) = decide (t < y)) := by
  refine ⟨?_, ?_, ?_, ?_⟩
  · intro c hc
    simp [divYieldScreen, hc]
  · intro dps
    rfl
  · intro t
    rfl
  · intro t y
    rfl

/-- Witness for C7's amended theorem at concrete inputs: zero dividend with
close 100 gives yield `some 0`; missing price gives `none`; `none` fails a
2% threshold while `some 0` is compared (and fails it as an ordinary
number, not as a missing value). -/
theorem screen_divYield_distinction_concrete :
    divYieldScreen (some 0) (some 100) = some 0
    ∧ divYieldScreen (some 5) none = none
    ∧ divFilterPass (some (1/50)) none = false := by
  refine ⟨?_, ?_, ?_⟩
  · exact screen_divYield_distinction.1 100 (by norm_num)
  · exact screen_divYield_distinction.2.1 (some 5)
  · exact screen_divYield_distinction.2.2.1 (1/50)

/-! ### Response paths of the HTTP handlers (claim C8)

`safeJson` (unnamed/part_002:602-613):
```js
function safeJson(res, status, body) {
  try {
    res.statusCode = status;
    res.setHeader("Content-Type", "application/json; charset=utf-8");
    res.end(JSON.stringify(body));
  } catch {
    res.statusCode = 500;
    res.setHeader("Content-Type", "text/plain; charset=utf-8");
    res.end("Internal Server Error");
  }
}
```
First-revision router (api/index.js:323-601): every terminal write goes
through `json(res, code, obj)` — including the 400 parameter errors, the
JSON 404 (`{error: "No route for ..."}`) and the top-level catch — except
the CORS preflight, which ends a body-less 204.

Second-revision router (api/index.js:1017-1039): matched routes dispatch
to handlers whose every write goes through `safeJson` (success and
failure), and the top-level catch calls `safeJson`; but the unmatched
fall-through executes `res.statusCode = 404; res.end("Not Found")` — a
plain-text body.  Responses are embedded by their body kind; `threw`
records whether the dispatched body threw an exception that reached the
router's catch. -/

inductive RespKind where
  | json
  | text
  | empty
deriving DecidableEq

/-- `safeJson` body kind: JSON, or the plain-text fallback when
serialization/writing itself throws. -/
def safeJson (stringifyOk : Bool) : RespKind :=
  if stringifyOk then RespKind.json else RespKind.text

def router1 (path method : String) (threw : Bool) : RespKind :=
  if threw then RespKind.json
  else if method = "OPTIONS" then RespKind.empty
  else if path = "/api/health" ∧ method = "GET" then RespKind.json
  else if path = "/api/auth/refresh" ∧ method = "POST" then RespKind.json
  else if path = "/api/prices/daily" ∧ method = "GET" then RespKind.json
  else if path = "/api/fins/statements" ∧ method = "GET" then RespKind.json
  else if path = "/api/credit/weekly" ∧ method = "GET" then RespKind.json
  else if path = "/api/credit/daily_public" ∧ method = "GET" then RespKind.json
  else if path = "/api/screen/liquidity" ∧ method = "GET" then RespKind.json
  else if path = "/api/screen/basic" ∧ method = "GET" then RespKind.json
  else if path = "/api/portfolio/summary" ∧ method = "GET" then RespKind.json
  else RespKind.json

/-- The second revision's route table (api/index.js:1022-1032). -/
def matched2 (path method : String) : Prop :=
  path = "/api/health"
  ∨ (path = "/api/debug" ∧ method = "GET")
  ∨ (path = "/api/debug/routes" ∧ method = "GET")
  ∨ (path = "/api/auth/refresh" ∧ (method = "POST" ∨ method = "GET"))
  ∨ (path = "/api/universe/listed" ∧ method = "GET")
  ∨ (path = "/api/prices/daily" ∧ method = "GET")
  ∨ (path = "/api/fins/statements" ∧ method = "GET")
  ∨ (path = "/api/screen/liquidity" ∧ method = "GET")
  ∨ (path = "/api/screen/basic" ∧ method = "GET")

instance matched2Dec (path method : String) : Decidable (matched2 path method) := by
  unfold matched2
  infer_instance

def router2 (path method : String) (threw stringifyOk : Bool) : RespKind :=
  if threw then safeJson stringifyOk
  else if path = "/api/health" then safeJson stringifyOk
  else if path = "/api/debug" ∧ method = "GET" then safeJson stringifyOk
  else if path = "/api/debug/routes" ∧ method = "GET" then safeJson stringifyOk
  else if path = "/api/auth/refresh" ∧ (method = "POST" ∨ method = "GET") then
    safeJson stringifyOk
  else if path = "/api/universe/listed" ∧ method = "GET" then safeJson stringifyOk
  else if path = "/api/prices/daily" ∧ method = "GET" then safeJson stringifyOk
  else if path = "/api/fins/statements" ∧ method = "GET" then safeJson stringifyOk
  else if path = "/api/screen/liquidity" ∧ method = "GET" then safeJson stringifyOk
  else if path = "/api/screen/basic" ∧ method = "GET" then safeJson stringifyOk
  else RespKind.text

/-- Counterexample to claim C8 as stated: in the second revision's router
an unmatched route (here `GET /api/nope`) produces the plain-text body
`"Not Found"`, not a well-formed JSON body. -/
theorem router2_unmatched_is_plain_text :
    router2 "/api/nope" "GET" false true = RespKind.text
    ∧ RespKind.text ≠ RespKind.json := by
  constructor
  · decide
  · decide

/-- Claim C8 (amended): in the first revision's handler every response path
— success, client error, unmatched route, internal failure — returns a
JSON body (only the body-less 204 CORS preflight is not JSON); in the
second revision's handler every matched route and every internal failure
returns JSON via `safeJson` (which degrades to a plain-text 500 only if
serialization itself throws), but an unmatched route returns the
plain-text body "Not Found". -/
theorem handler_response_kinds :
    (∀ (path method : String) (threw : Bool), method ≠ "OPTIONS" →
        router1 path method threw = RespKind.json)
    ∧ (∀ path method : String, router2 path method true true = RespKind.json)
    ∧ (∀ path method : String, matched2 path method →
        router2 path method false true = RespKind.json)
    ∧ (∀ path method : String, ¬ matched2 path method →
        router2 path method false true = RespKind.text)
    ∧ safeJson false = RespKind.text := by
  refine ⟨?_, ?_, ?_, ?_, rfl⟩
  · intro path method threw hm
    cases threw with
    | true => rfl
    | false =>
      unfold router1
      rw [if_neg Bool.false_ne_true, if_neg hm]
      simp only [ite_self]
  · intro path method
    rfl
  · intro path method h
    rcases h with h | h | h | h | h | h | h | h | h
    · rw [h]; rfl
    · rw [h.1, h.2]; rfl
    · rw [h.1, h.2]; rfl
    · rcases h.2 with hm | hm <;> rw [h.1, hm] <;> rfl
    · rw [h.1, h.2]; rfl
    · rw [h.1, h.2]; rfl
    · rw [h.1, h.2]; rfl
    · rw [h.1, h.2]; rfl
    · rw [h.1, h.2]; rfl
  · intro path method h
    unfold matched2 at h
    push_neg at h
    obtain ⟨n1, n2, n3, n4, n5, n6, n7, n8, n9⟩ := h
    unfold router2
    rw [if_neg Bool.false_ne_true, if_neg n1,
      if_neg (by rintro ⟨hp, hq⟩; exact n2 hp hq),
      if_neg (by rintro ⟨hp, hq⟩; exact n3 hp hq),
      if_neg (by rintro ⟨hp, hq | hq⟩; exacts [(n4 hp).1 hq, (n4 hp).2 hq]),
      if_neg (by rintro ⟨hp, hq⟩; exact n5 hp hq),
      if_neg (by rintro ⟨hp, hq⟩; exact n6 hp hq),
      if_neg (by rintro ⟨hp, hq⟩; exact n7 hp hq),
      if_neg (by rintro ⟨hp, hq⟩; exact n8 hp hq),
      if_neg (by rintro ⟨hp, hq⟩; exact n9 hp hq)]

/-- Witness for C8's amended theorem at concrete inputs: an unmatched route
in the first revision still answers JSON; a matched health check in the
second revision answers JSON. -/
theorem handler_response_kinds_concrete :
    router1 "/api/nonexistent" "GET" false = RespKind.json
    ∧ router2 "/api/health" "GET" false true = RespKind.json := by
  constructor
  · exact handler_response_kinds.1 "/api/nonexistent" "GET" false (by decide)
  · exact handler_response_kinds.2.2.1 "/api/health" "GET" (by decide)

/-! ### Screening scan order (claim C3, unnamed/part_003:786-871)

`/api/screen/basic` builds the candidate universe, sorts it, then evaluates
it under a budget:
```js
const cands = [];
for (const [code, tv] of avgTV.entries()) {
  if (allowSet && !allowSet.has(code)) continue;
  if (!Number.isFinite(tv) || tv < liquidity_min) continue;
  ...
  if (!marketMatch(market, mname)) continue;
  cands.push([code, tv]);
}
cands.sort((a, b) => b[1] - a[1]);   // 売買代金の降順
for (const [code, tv] of cands) {
  processed++;
  if (timeLeft() <= 0) break;
  if (items.length >= limit) break;
  ...
  if (per_lt != null || pbr_lt != null || div_yield_gt != null) {
    if (timeLeft() <= 0 || scanned >= MAX_SCAN) break;
    scanned++;
    try { const stmts = await fetchFinsStatementsByCode(code, ...); ... }
    catch (_) { continue; }
  }
  ...
}
```
Turnover values are exact rationals (`Number.isFinite(tv)` always holds in
the embedding).  The allow-set and market filters are the two boolean
predicates the loop consults; `pass` abstracts the outcome of one
valuation lookup (filters passed and no fetch error).  The wall-clock
budget is embedded as never expiring, so the scan ceiling `MAX_SCAN` is
the budget that truncates the scan; JS `Array.prototype.sort` is stable,
embedded as `insertionSort` with the comparator relation
`(a, b) => b[1] - a[1] <= 0`, i.e. `b.2 ≤ a.2`. -/

def tvDesc (a b : String × ℚ) : Prop := b.2 ≤ a.2

instance tvDescDecidable : DecidableRel tvDesc :=
  fun a b => inferInstanceAs (Decidable (b.2 ≤ a.2))

instance tvDescTotal : IsTotal (String × ℚ) tvDesc :=
  ⟨fun a b => le_total b.2 a.2⟩

instance tvDescTrans : IsTrans (String × ℚ) tvDesc :=
  ⟨fun _ _ _ h1 h2 => le_trans h2 h1⟩

/-- Candidate-universe construction (first stage), in source check order:
allow-set, liquidity threshold, market filter. -/
def buildCands (allow marketOk : String → Bool) (liqMin : ℚ)
    (avgTV : List (String × ℚ)) : List (String × ℚ) :=
  avgTV.filter (fun p => allow p.1 && decide (liqMin ≤ p.2) && marketOk p.1)

/-- The evaluation order: candidates sorted by descending turnover before
the scan loop starts. -/
def evalOrder (allow marketOk : String → Bool) (liqMin : ℚ)
    (avgTV : List (String × ℚ)) : List (String × ℚ) :=
  List.insertionSort tvDesc (buildCands allow marketOk liqMin avgTV)

/-- The scan loop, recording the candidates for which a valuation lookup
(`fetchFinsStatementsByCode`) is issued, in order.  A lookup happens before
the pass/fail of the valuation filters is known, so both branches record
the candidate; only passing candidates count toward `limit`. -/
def scanLookups (pass : String → Bool) (limit maxScan : Nat) :
    List (String × ℚ) → Nat → Nat → List (String × ℚ)
  | [], _, _ => []
  | c :: rest, nItems, scanned =>
    if limit ≤ nItems then []
    else if maxScan ≤ scanned then []
    else if pass c.1 then
      c :: scanLookups pass limit maxScan rest (nItems + 1) (scanned + 1)
    else c :: scanLookups pass limit maxScan rest nItems (scanned + 1)

/-- The whole pipeline: filter, sort descending, scan under the budget. -/
def screenScan (allow marketOk pass : String → Bool) (liqMin : ℚ)
    (limit maxScan : Nat) (avgTV : List (String × ℚ)) : List (String × ℚ) :=
  scanLookups pass limit maxScan (evalOrder allow marketOk liqMin avgTV) 0 0

lemma scanLookups_take (pass : String → Bool) (limit maxScan : Nat) :
    ∀ (l : List (String × ℚ)) (nItems scanned : Nat),
      ∃ m, scanLookups pass limit maxScan l nItems scanned = l.take m := by
  intro l
  induction l with
  | nil => exact fun _ _ => ⟨0, rfl⟩
  | cons c rest ih =>
    intro nI sc
    unfold scanLookups
    by_cases h1 : limit ≤ nI
    · rw [if_pos h1]; exact ⟨0, rfl⟩
    · rw [if_neg h1]
      by_cases h2 : maxScan ≤ sc
      · rw [if_pos h2]; exact ⟨0, rfl⟩
      · rw [if_neg h2]
        by_cases h3 : pass c.1 = true
        · rw [if_pos h3]
          obtain ⟨m, hm⟩ := ih (nI + 1) (sc + 1)
          exact ⟨m + 1, by rw [hm]; rfl⟩
        · rw [if_neg h3]
          obtain ⟨m, hm⟩ := ih nI (sc + 1)
          exact ⟨m + 1, by rw [hm]; rfl⟩

lemma sorted_map_snd {l : List (String × ℚ)} (h : List.Sorted tvDesc l) :
    List.Sorted (· ≥ ·) (l.map Prod.snd) :=
  List.Pairwise.map Prod.snd (fun _ _ hab => hab) h

/-- Claim C3: for every candidate universe and filter configuration, the
candidates passing the allow/market/liquidity filters are arranged in
descending turnover order before the scan starts, the valuation lookups
are issued along a prefix of that order (whatever the limit and scan
budget), and the issued-lookup sequence is itself turnover-descending; in
the spec's concrete scenario (A = 5e8, B = 2e9, C = 1e8, threshold 1e8,
budget of 2 valuation lookups) the scan evaluates B then A and never
reaches C. -/
theorem screen_scan_order :
    (∀ (allow marketOk pass : String → Bool) (liqMin : ℚ) (limit maxScan : Nat)
        (avgTV : List (String × ℚ)),
        List.Sorted tvDesc (evalOrder allow marketOk liqMin avgTV)
        ∧ (∃ m, screenScan allow marketOk pass liqMin limit maxScan avgTV
            = (evalOrder allow marketOk liqMin avgTV).take m)
        ∧ List.Sorted (· ≥ ·)
            ((screenScan allow marketOk pass liqMin limit maxScan avgTV).map Prod.snd))
    ∧ evalOrder (fun _ => true) (fun _ => true) 100000000
        [("A", 500000000), ("B", 2000000000), ("C", 100000000)]
      = [("B", 2000000000), ("A", 500000000), ("C", 100000000)]
    ∧ screenScan (fun _ => true) (fun _ => true) (fun _ => true) 100000000 30 2
        [("A", 500000000), ("B", 2000000000), ("C", 100000000)]
      = [("B", 2000000000), ("A", 500000000)] := by
  refine ⟨?_, by decide, by decide⟩
  intro allow marketOk pass liqMin limit maxScan avgTV
  have hsorted : List.Sorted tvDesc (evalOrder allow marketOk liqMin avgTV) :=
    List.sorted_insertionSort tvDesc _
  obtain ⟨m, hm⟩ := scanLookups_take pass limit maxScan
    (evalOrder allow marketOk liqMin avgTV) 0 0
  refine ⟨hsorted, ⟨m, hm⟩, ?_⟩
  refine sorted_map_snd ?_
  show List.Pairwise tvDesc _
  rw [show screenScan allow marketOk pass liqMin limit maxScan avgTV
      = (evalOrder allow marketOk liqMin avgTV).take m from hm]
  exact List.Pairwise.sublist (List.take_sublist m _) hsorted

/-! ### Trading-day derivation (claim C10, api/index.js:222-238)

```js
async function getRecentTradingDates(nDays, idTokenOverride) {
  ...
  const cal = await jqGET(`/markets/trading_calendar?from=...&to=...`);
  const list = (cal.trading_calendar || []).map(r => ({
    date: normDateStr(pick(r, "Date", "date")),
    hol: String(pick(r, "HolidayDivision", "holidayDivision", "Holiday") || "")
  }));
  const biz = list.filter(x => x.hol === "1" || x.hol === "2").map(x => x.date);
  const uniq = Array.from(new Set(biz)).sort(); // 昇順
  return uniq.slice(Math.max(0, uniq.length - nDays));
}
async function getLatestTradingDate(idTokenOverride) {
  const d = await getRecentTradingDates(1);
  return d[0];
}
```
A calendar entry is embedded as the mapped `{date, hol}` record, with its
strings as `List Char`; the JS `Set`-then-`.sort()` is embedded as `dedup`
followed by a stable sort (`Array.prototype.sort` without a comparator
compares strings by code units, which is the lexicographic `List Char`
order); `slice(Math.max(0, uniq.length - nDays))` is
`drop (length - nDays)` (truncated subtraction); `d[0]` of a possibly
empty array is an `Option`. -/

structure CalEntry where
  date : List Char
  hol : List Char
deriving DecidableEq

/-- `x.hol === "1" || x.hol === "2"`. -/
def isBizDay (e : CalEntry) : Bool := decide (e.hol = ['1'] ∨ e.hol = ['2'])

def bizDates (cal : List CalEntry) : List (List Char) :=
  (cal.filter isBizDay).map CalEntry.date

/-- `Array.from(new Set(biz)).sort()`. -/
def uniqDates (cal : List CalEntry) : List (List Char) :=
  List.insertionSort (· ≤ ·) (bizDates cal).dedup

def getRecentTradingDates (nDays : Nat) (cal : List CalEntry) : List (List Char) :=
  (uniqDates cal).drop ((uniqDates cal).length - nDays)

def getLatestTradingDate (cal : List CalEntry) : Option (List Char) :=
  (getRecentTradingDates 1 cal).head?

lemma uniqDates_sorted (cal : List CalEntry) :
    List.Sorted (· ≤ ·) (uniqDates cal) :=
  List.sorted_insertionSort _ _

lemma uniqDates_nodup (cal : List CalEntry) : (uniqDates cal).Nodup :=
  ((List.perm_insertionSort _ _).nodup_iff).mpr (List.nodup_dedup _)

lemma mem_uniqDates {cal : List CalEntry} {d : List Char} :
    d ∈ uniqDates cal ↔ d ∈ bizDates cal := by
  unfold uniqDates
  rw [(List.perm_insertionSort _ _).mem_iff, List.mem_dedup]

lemma mem_bizDates {cal : List CalEntry} {d : List Char} :
    d ∈ bizDates cal ↔ ∃ e ∈ cal, isBizDay e = true ∧ e.date = d := by
  unfold bizDates
  simp only [List.mem_map, List.mem_filter]
  tauto

/-- Claim C10: for every `nDays` and calendar response, the derived list
contains only dates some calendar entry flags as a full ("1") or half
("2") business day, is duplicate-free, strictly ascending, and has length
at most `nDays`; it keeps the most recent such dates (anything flagged but
left out is `≤` everything kept); and the latest-trading-date helper
returns the maximum flagged date when one exists. -/
theorem getRecentTradingDates_spec (n : Nat) (cal : List CalEntry) :
    (∀ d ∈ getRecentTradingDates n cal,
        ∃ e ∈ cal, isBizDay e = true ∧ e.date = d)
    ∧ (getRecentTradingDates n cal).Nodup
    ∧ List.Sorted (· < ·) (getRecentTradingDates n cal)
    ∧ (getRecentTradingDates n cal).length ≤ n
    ∧ (∀ d ∈ bizDates cal, d ∉ getRecentTradingDates n cal →
        ∀ e ∈ getRecentTradingDates n cal, d ≤ e)
    ∧ (∀ m, getLatestTradingDate cal = some m →
        m ∈ bizDates cal ∧ ∀ d ∈ bizDates cal, d ≤ m)
    ∧ (bizDates cal ≠ [] → ∃ m, getLatestTradingDate cal = some m) := by
  have hdropsub : ∀ k : Nat, List.Sublist ((uniqDates cal).drop k) (uniqDates cal) :=
    fun k => List.drop_sublist k _
  have hsortlt : List.Sorted (· < ·) (uniqDates cal) :=
    (uniqDates_sorted cal).lt_of_le (uniqDates_nodup cal)
  have hsplit : ∀ (k : Nat) (d : List Char), d ∈ bizDates cal →
      d ∉ (uniqDates cal).drop k → d ∈ (uniqDates cal).take k := by
    intro k d hd hnot
    have hu : d ∈ uniqDates cal := mem_uniqDates.mpr hd
    rw [← List.take_append_drop k (uniqDates cal), List.mem_append] at hu
    exact hu.resolve_right hnot
  have hPW : ∀ k : Nat,
      List.Pairwise (· ≤ ·) ((uniqDates cal).take k ++ (uniqDates cal).drop k) := by
    intro k
    rw [List.take_append_drop k (uniqDates cal)]
    exact uniqDates_sorted cal
  refine ⟨?_, ?_, ?_, ?_, ?_, ?_, ?_⟩
  · intro d hd
    exact mem_bizDates.mp (mem_uniqDates.mp (List.mem_of_mem_drop hd))
  · exact (uniqDates_nodup cal).sublist (hdropsub _)
  · exact List.Pairwise.sublist (hdropsub _) hsortlt
  · unfold getRecentTradingDates
    rw [List.length_drop]
    omega
  · intro d hd hnot e he
    exact (List.pairwise_append.mp (hPW _)).2.2 d (hsplit _ d hd hnot) e he
  · intro m hm
    unfold getLatestTradingDate getRecentTradingDates at hm
    have hlen1 : ((uniqDates cal).drop ((uniqDates cal).length - 1)).length ≤ 1 := by
      rw [List.length_drop]; omega
    cases hdk : (uniqDates cal).drop ((uniqDates cal).length - 1) with
    | nil => rw [hdk] at hm; simp at hm
    | cons a t =>
      rw [hdk] at hm hlen1
      have ham : a = m := by simpa using hm
      have htnil : t = [] := by
        simp only [List.length_cons] at hlen1
        exact List.eq_nil_of_length_eq_zero (by omega)
      subst ham
      subst htnil
      have hmem : a ∈ uniqDates cal :=
        List.mem_of_mem_drop (by rw [hdk]; exact List.mem_cons_self a [])
      refine ⟨mem_uniqDates.mp hmem, ?_⟩
      intro d hd
      by_cases hdin : d ∈ (uniqDates cal).drop ((uniqDates cal).length - 1)
      · rw [hdk] at hdin
        rw [List.mem_singleton.mp hdin]
      · exact (List.pairwise_append.mp (hPW _)).2.2 d
          (hsplit _ d hd hdin) a (by rw [hdk]; exact List.mem_cons_self a [])
  · intro hne
    have hlenpos : 1 ≤ (uniqDates cal).length := by
      by_contra hlt
      have h0 : (uniqDates cal).length = 0 := by omega
      have hd0 : (bizDates cal).dedup = [] := by
        have hpl := (List.perm_insertionSort (· ≤ ·) (bizDates cal).dedup).length_eq
        unfold uniqDates at h0
        exact List.eq_nil_of_length_eq_zero (by omega)
      exact hne ((List.dedup_eq_nil _).mp hd0)
    cases hdk : (uniqDates cal).drop ((uniqDates cal).length - 1) with
    | nil =>
      exfalso
      have := congrArg List.length hdk
      rw [List.length_drop] at this
      simp at this
      omega
    | cons a t =>
      refine ⟨a, ?_⟩
      unfold getLatestTradingDate getRecentTradingDates
      rw [hdk]
      rfl

/-- The calendar used by the C10 witness: three business days (one a half
day), one holiday, listed out of order. -/
def calDemo : List CalEntry :=
  [⟨"2024-01-03".data, "1".data⟩, ⟨"2024-01-01".data, "1".data⟩,
   ⟨"2024-01-02".data, "2".data⟩, ⟨"2024-01-04".data, "0".data⟩]

/-- Witness for C10 at a concrete calendar and `nDays = 2`: the slice keeps
at most 2 dates, each dropped flagged date precedes every kept one, and
the latest-trading-date helper returns the maximum flagged date. -/
theorem getRecentTradingDates_spec_concrete :
    (getRecentTradingDates 2 calDemo).length ≤ 2
    ∧ (∀ e ∈ getRecentTradingDates 2 calDemo, "2024-01-01".data ≤ e)
    ∧ ("2024-01-03".data ∈ bizDates calDemo
        ∧ ∀ d ∈ bizDates calDemo, d ≤ "2024-01-03".data) := by
  refine ⟨(getRecentTradingDates_spec 2 calDemo).2.2.2.1, ?_, ?_⟩
  · exact (getRecentTradingDates_spec 2 calDemo).2.2.2.2.1 "2024-01-01".data
      (by decide) (by decide)
  · exact (getRecentTradingDates_spec 2 calDemo).2.2.2.2.2.1 "2024-01-03".data
      (by decide)

end JQProxy
